import Mathlib

/-!
Verification development for the tcg-sim repository.

The repository has two source files under src/engine/src: main.rs, holding
the hill-climbing optimization loop, and creature.rs, holding the creature
capability accessors of the card model.

Modelling conventions.

Card model (creature.rs): the Card structure itself lives in card.rs, which
is not part of the sources; its shape is modelled from its uses in
creature.rs and from the spec (a list of category tags plus a map from
capability kind to capability payload). The fragments HashMap is embedded
as a function from CardFragmentKind to Option CardFragment; the runtime
downcast to CreatureFragment becomes a match on the CardFragment sum type.
The u8 power and toughness fields are embedded as Nat: no arithmetic is
ever performed on them, so overflow cannot arise.

Optimization loop (main.rs): the f64 results returned by sim::try_scenario
are modelled as exact rationals; every comparison the code performs (min,
equality, the 0.01 tolerance test) is translated verbatim over the
rationals. try_scenario itself lives in sim.rs, which is not part of the
sources: each call is modelled as consuming the next value of an oracle
res : Nat -> Rat indexed by a running call counter. The embedding covers
the runs in which the step mode never becomes Quit (the claims under
verification all assume the loop is not interrupted); in such runs the
read_line and RunDeck re-reads of main.rs do not affect the computation.
The HashMap result_history is embedded as an association list enumerated
in insertion order, which realises one admissible iteration order of the
HashMap; all verified claims are insensitive to the enumeration order.
-/

namespace TcgSim

/-! ## Card model (creature.rs; Card shape modelled from its uses and the spec) -/

/-- Coarse category tags of a card. Modelled from the spec: card.rs is not
under src/; the spec names Creature, Land and Spell as the tags. -/
inductive CardType
  | Creature
  | Land
  | Spell
deriving DecidableEq, Repr

/-- Capability kinds. Modelled from the spec: only the Creature capability
is used by the engine core. -/
inductive CardFragmentKind
  | Creature
deriving DecidableEq, Repr

/-- Immutable combat stats of a creature payload. The u8 fields of the code
are embedded as Nat, no arithmetic being performed on them. -/
structure CreatureStats where
  power : Nat
  toughness : Nat
deriving DecidableEq, Repr

/-- The Creature capability payload of creature.rs. -/
structure CreatureFragment where
  stats : CreatureStats
  summoning_sickness : Bool
deriving DecidableEq, Repr

/-- A capability payload; the sum type replaces the type-erased Box of the
code, and a match on it replaces the runtime downcast. -/
inductive CardFragment
  | creature (cf : CreatureFragment)
deriving DecidableEq, Repr

/-- A card: category tags plus the capability map, the latter embedded as a
function from kinds to optional payloads. Modelled from the spec and from
the uses in creature.rs (card.rs is not under src/). -/
@[ext]
structure Card where
  card_types : List CardType
  fragments : CardFragmentKind → Option CardFragment

/-- Translation of is_creature from creature.rs. -/
def is_creature (card : Card) : Bool :=
  card.card_types.any (fun ct => ct == CardType.Creature)
    || (card.fragments CardFragmentKind.Creature).isSome

/-- Translation of creature_stats from creature.rs. -/
def creature_stats (card : Card) : Option CreatureStats :=
  (card.fragments CardFragmentKind.Creature).bind fun f =>
    match f with
    | CardFragment.creature cf => some cf.stats

/-- Translation of add_creature_fragment from creature.rs: insert a fresh
Creature payload with summoning_sickness false, replacing any prior one. -/
def add_creature_fragment (card : Card) (power toughness : Nat) : Card :=
  { card with
      fragments := fun k =>
        if k = CardFragmentKind.Creature then
          some (CardFragment.creature
            { stats := { power := power, toughness := toughness },
              summoning_sickness := false })
        else card.fragments k }

/-- Translation of remove_creature_fragment from creature.rs. -/
def remove_creature_fragment (card : Card) : Card :=
  { card with
      fragments := fun k =>
        if k = CardFragmentKind.Creature then none
        else card.fragments k }

/-- Translation of set_summoning_sickness from creature.rs: mutate the
sickness bit when the payload is present, do nothing otherwise. -/
def set_summoning_sickness (card : Card) (value : Bool) : Card :=
  match card.fragments CardFragmentKind.Creature with
  | some (CardFragment.creature cf) =>
      { card with
          fragments := fun k =>
            if k = CardFragmentKind.Creature then
              some (CardFragment.creature { cf with summoning_sickness := value })
            else card.fragments k }
  | none => card

/-- Translation of has_summoning_sickness from creature.rs. -/
def has_summoning_sickness (card : Card) : Bool :=
  ((card.fragments CardFragmentKind.Creature).bind fun f =>
    match f with
    | CardFragment.creature cf => some cf.summoning_sickness).getD false

/-- A card with no tags and no capabilities, used as a concrete input. -/
def blankCard : Card :=
  { card_types := [], fragments := fun _ => none }

/-- A concrete card holding the Creature capability. -/
def sampleCreatureCard : Card :=
  add_creature_fragment blankCard 3 4

/-! ## Optimization loop (main.rs) -/

/-- A deck configuration: (land count, nonland count), the u32 fields of
the code embedded as Nat. -/
abbrev Config := Nat × Nat

/-- The result_history HashMap of main.rs, embedded as an association list
enumerated in insertion order. -/
abbrev History := List (Config × List ℚ)

/-- Lookup of a configuration in the history. -/
def lookupHist : History → Config → Option (List ℚ)
  | [], _ => none
  | (c, rs) :: h, c0 => if c = c0 then some rs else lookupHist h c0

/-- Translation of result_history.entry(cfg).or_insert_with(Vec::new)
.push(result) from main.rs: append the value to the list of the
configuration, inserting the configuration first when absent. -/
def pushResult : History → Config → ℚ → History
  | [], c, r => [(c, [r])]
  | (c0, rs) :: h, c, r =>
      if c0 = c then (c0, rs ++ [r]) :: h
      else (c0, rs) :: pushResult h c r

/-- Total number of recorded samples across the whole history. -/
def histSize (h : History) : Nat :=
  (h.map (fun e => e.2.length)).sum

/-- The per-configuration average results.iter().sum::<f64>() / len of
main.rs, over exact rationals. -/
def listMean (l : List ℚ) : ℚ :=
  l.sum / (l.length : ℚ)

/-- Translation of the candidate-collection loop of main.rs: every history
entry with at least 3 samples, paired with its mean. -/
def candidatesOf (h : History) : List (Nat × Nat × ℚ) :=
  h.filterMap (fun e =>
    if 3 ≤ e.2.length then some (e.1.1, e.1.2, listMean e.2) else none)

/-- Translation of the fold candidates.iter().fold(f64::INFINITY, a.min b)
of main.rs. On the nonempty lists it is applied to (the code guards it by
candidates.is_empty), the infinite seed is replaced by the first element at
the first step, so the fold computes the least element of the list; the
empty case is never reached and returns a dummy value. -/
def foldMinInf : List ℚ → ℚ
  | [] => 0
  | a :: l => l.foldl min a

/-- Translation of the tied-candidate filter of main.rs: the candidates
whose mean lies strictly within 0.01 of the minimum mean. -/
def tiedOf (cands : List (Nat × Nat × ℚ)) : List (Nat × Nat × ℚ) :=
  cands.filter (fun c =>
    decide (|c.2.2 - foldMinInf (cands.map (fun d => d.2.2))| < 1 / 100))

/-- Translation of the best-configuration selection of main.rs: the least
of the three results, ties resolved in favour of result0 then result1. -/
def bestConfig (L N : Nat) (r0 r1 r2 : ℚ) : Config :=
  let smallest := min (min r0 r1) r2
  if r0 = smallest then (L, N)
  else if r1 = smallest then (L + 1, N - 1)
  else (L - 1, N + 1)

/-- The loop state of main.rs: current center, result history and the
number of try_scenario calls made so far (the index into the oracle). -/
structure IterState where
  lands : Nat
  nonlands : Nat
  hist : History
  calls : Nat
deriving Repr

/-- The history after the three per-iteration evaluations of main.rs:
(L, N), (L + 1, N - 1) and (L - 1, N + 1) are tried in this order and each
result is pushed onto the history. -/
def iterHist (s : IterState) (res : Nat → ℚ) : History :=
  pushResult (pushResult (pushResult s.hist
    (s.lands, s.nonlands) (res s.calls))
    (s.lands + 1, s.nonlands - 1) (res (s.calls + 1)))
    (s.lands - 1, s.nonlands + 1) (res (s.calls + 2))

/-- The three configurations evaluated by one iteration of main.rs, in
evaluation order. -/
def iterConfigs (L N : Nat) : List Config :=
  [(L, N), (L + 1, N - 1), (L - 1, N + 1)]

/-- Outcome of one pass through the loop body of main.rs: either the center
moves and the loop continues, or a winner is declared (the break after the
clear-winner branch or after the tie-break branch, recording how many extra
tie-break runs were performed), or the unwrap on an empty tie-break result
list would panic (proved unreachable below). -/
inductive IterOutcome
  | moved (s : IterState)
  | optimal (winner : Config) (tiebreakRuns : Nat) (s : IterState)
  | stuck
deriving Repr

/-- Translation of the tie-break for loop of main.rs: one extra
try_scenario call per tied configuration, in candidate order, consuming
consecutive oracle indices starting at k; results go into a local list,
not into the history. -/
def tiebreakResults : List (Nat × Nat × ℚ) → (Nat → ℚ) → Nat → List (Nat × Nat × ℚ)
  | [], _, _ => []
  | t :: ts, res, k => (t.1, t.2.1, res k) :: tiebreakResults ts res (k + 1)

/-- Translation of tiebreaker_results.iter().min_by on the result value:
when several elements are equally minimal the last one is returned, as for
the Rust iterator min_by. -/
def minByValue : List (Nat × Nat × ℚ) → Option (Nat × Nat × ℚ)
  | [] => none
  | x :: xs => some (xs.foldl (fun acc y => if y.2.2 ≤ acc.2.2 then y else acc) x)

/-- One pass through the loop body of main.rs (no Quit received): evaluate
the three neighbors, record the results, then either move greedily (no
configuration with 3 or more samples yet), declare the unique tied
candidate optimal, or run the tie-break and declare its winner optimal. -/
def runIteration (s : IterState) (res : Nat → ℚ) : IterOutcome :=
  if (candidatesOf (iterHist s res)).isEmpty then
    IterOutcome.moved
      { lands := (bestConfig s.lands s.nonlands
            (res s.calls) (res (s.calls + 1)) (res (s.calls + 2))).1,
        nonlands := (bestConfig s.lands s.nonlands
            (res s.calls) (res (s.calls + 1)) (res (s.calls + 2))).2,
        hist := iterHist s res,
        calls := s.calls + 3 }
  else if (tiedOf (candidatesOf (iterHist s res))).length = 1 then
    match tiedOf (candidatesOf (iterHist s res)) with
    | t :: _ =>
        IterOutcome.optimal (t.1, t.2.1) 0
          { lands := s.lands, nonlands := s.nonlands,
            hist := iterHist s res, calls := s.calls + 3 }
    | [] => IterOutcome.stuck
  else
    match minByValue (tiebreakResults (tiedOf (candidatesOf (iterHist s res)))
        res (s.calls + 3)) with
    | some w =>
        IterOutcome.optimal (w.1, w.2.1)
          (tiedOf (candidatesOf (iterHist s res))).length
          { lands := s.lands, nonlands := s.nonlands,
            hist := iterHist s res,
            calls := s.calls + 3 + (tiedOf (candidatesOf (iterHist s res))).length }
    | none => IterOutcome.stuck

/-- The optimization loop of main.rs, fuelled by a bound on the number of
iterations; none means the bound was exhausted (or the unreachable stuck
outcome arose). -/
def runLoop : Nat → IterState → (Nat → ℚ) → Option (Config × IterState)
  | 0, _, _ => none
  | fuel + 1, s, res =>
      match runIteration s res with
      | IterOutcome.moved s1 => runLoop fuel s1 res
      | IterOutcome.optimal w _ s1 => some (w, s1)
      | IterOutcome.stuck => none

/-- The initial loop state of main.rs: 29 lands, 31 nonlands, empty
history. -/
def initState : IterState :=
  { lands := 29, nonlands := 31, hist := [], calls := 0 }

/-- The history carried by an iteration outcome. -/
def IterOutcome.histOf : IterOutcome → History
  | IterOutcome.moved s => s.hist
  | IterOutcome.optimal _ _ s => s.hist
  | IterOutcome.stuck => []

/-- A loop state in which one configuration is about to reach a clear
majority: (29, 31) has two samples of 1 while the others sit at 9. -/
def c1State : IterState :=
  { lands := 29, nonlands := 31,
    hist := [((29, 31), [1, 1]), ((30, 30), [9, 9]), ((28, 32), [9, 9])],
    calls := 0 }

/-- Oracle whose first call returns 1 and all later calls return 9. -/
def c1Res : Nat → ℚ := fun n => if n = 0 then 1 else 9

/-- A loop state in which two configurations end the iteration tied with
mean 1 while the third sits at 9. -/
def c2State : IterState :=
  { lands := 29, nonlands := 31,
    hist := [((29, 31), [1, 1]), ((30, 30), [1, 1]), ((28, 32), [9, 9])],
    calls := 0 }

/-- Oracle producing a tie between the first two configurations and then
distinct tie-break values 5 and 4. -/
def c2Res : Nat → ℚ := fun n =>
  if n = 0 then 1 else if n = 1 then 1 else if n = 2 then 9
  else if n = 3 then 5 else 4

/-- Oracle driving a full run into a tie-break: the three per-iteration
values repeat 1, 1, 9, and the two tie-break calls (indices 9 and 10)
return 5 and 4. -/
def c3Res : Nat → ℚ := fun n =>
  if n = 9 then 5 else if n = 10 then 4 else if n % 3 = 2 then 9 else 1

/-- The loop state after iteration 1 of the run driven by c3Res. -/
def c3S1 : IterState :=
  { lands := 29, nonlands := 31,
    hist := [((29, 31), [1]), ((30, 30), [1]), ((28, 32), [9])],
    calls := 3 }

/-- The loop state after iteration 2 of the run driven by c3Res. -/
def c3S2 : IterState :=
  { lands := 29, nonlands := 31,
    hist := [((29, 31), [1, 1]), ((30, 30), [1, 1]), ((28, 32), [9, 9])],
    calls := 6 }

/-- The final loop state of the run driven by c3Res: 11 calls were made,
but the history holds only the 9 regular samples. -/
def c3SF : IterState :=
  { lands := 29, nonlands := 31,
    hist := [((29, 31), [1, 1, 1]), ((30, 30), [1, 1, 1]), ((28, 32), [9, 9, 9])],
    calls := 11 }

/-! ## History and loop lemmas -/

/-- Pushing a result appends it to the list of its configuration and leaves
every other configuration unchanged. -/
lemma lookupHist_pushResult (h : History) (c : Config) (r : ℚ) (c0 : Config) :
    lookupHist (pushResult h c r) c0 =
      if c = c0 then some ((lookupHist h c).getD [] ++ [r])
      else lookupHist h c0 := by
  induction h with
  | nil =>
      by_cases hc : c = c0 <;> simp [pushResult, lookupHist, hc]
  | cons e tl ih =>
      obtain ⟨c1, rs⟩ := e
      by_cases h1 : c1 = c
      · subst h1
        by_cases h0 : c1 = c0 <;> simp [pushResult, lookupHist, h0]
      · by_cases h0 : c1 = c0
        · subst h0
          have hcc : ¬c = c1 := fun hh => h1 hh.symm
          simp [pushResult, lookupHist, h1, hcc]
        · simp [pushResult, lookupHist, h1, h0, ih]

/-- A history all of whose entries have fewer than 3 samples yields no
candidates. -/
lemma candidatesOf_eq_nil (h : History) (hlt : ∀ e ∈ h, e.2.length < 3) :
    candidatesOf h = [] := by
  unfold candidatesOf
  rw [List.filterMap_eq_nil_iff]
  intro e he
  rw [if_neg (not_le.mpr (hlt e he))]

/-- A history holding an entry with at least 3 samples yields a candidate. -/
lemma candidatesOf_ne_nil (h : History) (e : Config × List ℚ) (he : e ∈ h)
    (h3 : 3 ≤ e.2.length) : candidatesOf h ≠ [] := by
  intro hnil
  rw [candidatesOf, List.filterMap_eq_nil_iff] at hnil
  have := hnil e he
  rw [if_pos h3] at this
  exact Option.noConfusion this

/-- The left fold of min over a list lands in the seed or the list. -/
lemma foldl_min_mem (a : ℚ) (l : List ℚ) : l.foldl min a ∈ a :: l := by
  induction l generalizing a with
  | nil => simp
  | cons b tl ih =>
      rw [List.foldl_cons]
      rcases List.mem_cons.mp (ih (min a b)) with hh | hh
      · rcases min_choice a b with hab | hab
        · rw [hh, hab]
          exact List.mem_cons_self _ _
        · rw [hh, hab]
          exact List.mem_cons_of_mem _ (List.mem_cons_self _ _)
      · exact List.mem_cons_of_mem _ (List.mem_cons_of_mem _ hh)

/-- On a nonempty list, the infinity-seeded fold is an element of the
list. -/
lemma foldMinInf_mem (l : List ℚ) (hne : l ≠ []) : foldMinInf l ∈ l := by
  cases l with
  | nil => exact absurd rfl hne
  | cons a tl => exact foldl_min_mem a tl

/-- Whenever there are candidates at all, the tied-candidate list is
nonempty: the configuration achieving the minimum mean lies within the
tolerance of itself. -/
lemma tiedOf_ne_nil (cands : List (Nat × Nat × ℚ)) (hne : cands ≠ []) :
    tiedOf cands ≠ [] := by
  have hm : foldMinInf (cands.map (fun d => d.2.2)) ∈ cands.map (fun d => d.2.2) :=
    foldMinInf_mem _ (fun hh => hne (List.map_eq_nil_iff.mp hh))
  obtain ⟨c, hc, hceq⟩ := List.mem_map.mp hm
  have hmem : c ∈ tiedOf cands := by
    rw [tiedOf, List.mem_filter]
    refine ⟨hc, decide_eq_true ?_⟩
    rw [hceq, sub_self, abs_zero]
    norm_num
  intro hnil
  rw [hnil] at hmem
  exact List.not_mem_nil _ hmem

/-- The fold underlying minByValue returns an element of the list that is
minimal for the result value. -/
lemma foldl_minBy_spec (x : Nat × Nat × ℚ) (l : List (Nat × Nat × ℚ)) :
    l.foldl (fun acc y => if y.2.2 ≤ acc.2.2 then y else acc) x ∈ x :: l ∧
    ∀ u ∈ x :: l,
      (l.foldl (fun acc y => if y.2.2 ≤ acc.2.2 then y else acc) x).2.2 ≤ u.2.2 := by
  induction l generalizing x with
  | nil =>
      constructor
      · simp
      · intro u hu
        rcases List.mem_cons.mp hu with rfl | hh
        · exact le_refl _
        · simp at hh
  | cons y tl ih =>
      rw [List.foldl_cons]
      by_cases hyx : y.2.2 ≤ x.2.2
      · rw [if_pos hyx]
        obtain ⟨ihm, ihle⟩ := ih y
        refine ⟨List.mem_cons_of_mem _ ihm, ?_⟩
        intro u hu
        rcases List.mem_cons.mp hu with rfl | hu1
        · exact le_trans (ihle y (List.mem_cons_self _ _)) hyx
        · exact ihle u hu1
      · rw [if_neg hyx]
        obtain ⟨ihm, ihle⟩ := ih x
        constructor
        · rcases List.mem_cons.mp ihm with hh | hh
          · rw [hh]
            exact List.mem_cons_self _ _
          · exact List.mem_cons_of_mem _ (List.mem_cons_of_mem _ hh)
        · intro u hu
          rcases List.mem_cons.mp hu with rfl | hu1
          · exact ihle _ (List.mem_cons_self _ _)
          · rcases List.mem_cons.mp hu1 with rfl | hu2
            · exact le_trans (ihle x (List.mem_cons_self _ _))
                (le_of_lt (not_le.mp hyx))
            · exact ihle u (List.mem_cons_of_mem _ hu2)

/-- minByValue of a nonempty list returns an element achieving the least
result value. -/
lemma minByValue_spec (l : List (Nat × Nat × ℚ)) (hne : l ≠ []) :
    ∃ w, minByValue l = some w ∧ w ∈ l ∧ ∀ u ∈ l, w.2.2 ≤ u.2.2 := by
  cases l with
  | nil => exact absurd rfl hne
  | cons x tl =>
      obtain ⟨hm, hle⟩ := foldl_minBy_spec x tl
      exact ⟨_, rfl, hm, hle⟩

/-- The tie-break performs exactly one extra run per tied configuration. -/
lemma tiebreakResults_length (l : List (Nat × Nat × ℚ)) (res : Nat → ℚ) (k : Nat) :
    (tiebreakResults l res k).length = l.length := by
  induction l generalizing k with
  | nil => rfl
  | cons t tl ih => simp [tiebreakResults, ih]

/-- The tie-break runs visit exactly the tied configurations, in order. -/
lemma tiebreakResults_configs (l : List (Nat × Nat × ℚ)) (res : Nat → ℚ) (k : Nat) :
    (tiebreakResults l res k).map (fun c => (c.1, c.2.1))
      = l.map (fun c => (c.1, c.2.1)) := by
  induction l generalizing k with
  | nil => rfl
  | cons t tl ih => simp [tiebreakResults, ih]

/-- bestConfig returns one of the three evaluated configurations, the one
whose result is the least of the three. -/
lemma bestConfig_spec (L N : Nat) (r0 r1 r2 : ℚ) :
    (bestConfig L N r0 r1 r2 = (L, N) ∧ r0 = min (min r0 r1) r2) ∨
    (bestConfig L N r0 r1 r2 = (L + 1, N - 1) ∧ r1 = min (min r0 r1) r2) ∨
    (bestConfig L N r0 r1 r2 = (L - 1, N + 1) ∧ r2 = min (min r0 r1) r2) := by
  simp only [bestConfig]
  by_cases h0 : r0 = min (min r0 r1) r2
  · rw [if_pos h0]
    exact Or.inl ⟨rfl, h0⟩
  · rw [if_neg h0]
    by_cases h1 : r1 = min (min r0 r1) r2
    · rw [if_pos h1]
      exact Or.inr (Or.inl ⟨rfl, h1⟩)
    · rw [if_neg h1]
      refine Or.inr (Or.inr ⟨rfl, ?_⟩)
      rcases min_choice (min r0 r1) r2 with h | h
      · rcases min_choice r0 r1 with h2 | h2
        · exact absurd (h.trans h2).symm h0
        · exact absurd (h.trans h2).symm h1
      · exact h.symm

/-- When no configuration has 3 samples yet, the iteration moves the
center to the best of the three just-measured configurations. -/
lemma runIteration_moved (s : IterState) (res : Nat → ℚ)
    (hnil : candidatesOf (iterHist s res) = []) :
    runIteration s res = IterOutcome.moved
      { lands := (bestConfig s.lands s.nonlands
            (res s.calls) (res (s.calls + 1)) (res (s.calls + 2))).1,
        nonlands := (bestConfig s.lands s.nonlands
            (res s.calls) (res (s.calls + 1)) (res (s.calls + 2))).2,
        hist := iterHist s res,
        calls := s.calls + 3 } := by
  unfold runIteration
  rw [hnil]
  rfl

/-- When exactly one candidate is tied with the minimum, the iteration
declares it optimal without any extra run. -/
lemma runIteration_clear_winner (s : IterState) (res : Nat → ℚ)
    (t : Nat × Nat × ℚ)
    (hone : tiedOf (candidatesOf (iterHist s res)) = [t]) :
    runIteration s res = IterOutcome.optimal (t.1, t.2.1) 0
      { lands := s.lands, nonlands := s.nonlands,
        hist := iterHist s res, calls := s.calls + 3 } := by
  rcases hc : candidatesOf (iterHist s res) with _ | ⟨c, cs⟩
  · rw [hc] at hone
    simp [tiedOf] at hone
  · rw [hc] at hone
    unfold runIteration
    rw [hc, hone]
    rfl

/-- When the tied-candidate list does not have exactly one element, the
iteration runs the tie-break and declares the minByValue winner optimal. -/
lemma runIteration_tiebreak (s : IterState) (res : Nat → ℚ)
    (hne : candidatesOf (iterHist s res) ≠ [])
    (hlen : (tiedOf (candidatesOf (iterHist s res))).length ≠ 1)
    (w : Nat × Nat × ℚ)
    (hw : minByValue (tiebreakResults (tiedOf (candidatesOf (iterHist s res)))
        res (s.calls + 3)) = some w) :
    runIteration s res = IterOutcome.optimal (w.1, w.2.1)
      (tiedOf (candidatesOf (iterHist s res))).length
      { lands := s.lands, nonlands := s.nonlands,
        hist := iterHist s res,
        calls := s.calls + 3 + (tiedOf (candidatesOf (iterHist s res))).length } := by
  have hb : (candidatesOf (iterHist s res)).isEmpty = false := by
    rcases hc2 : candidatesOf (iterHist s res) with _ | ⟨c, cs⟩
    · exact absurd hc2 hne
    · rfl
  unfold runIteration
  rw [hb]
  rw [if_neg (by simp)]
  rw [if_neg hlen]
  rw [hw]

/-- Whenever the history holds a candidate with 3 samples at the end of an
iteration, the iteration declares some winner optimal and the loop ends. -/
lemma runIteration_ends (s : IterState) (res : Nat → ℚ)
    (hne : candidatesOf (iterHist s res) ≠ []) :
    ∃ w n s1, runIteration s res = IterOutcome.optimal w n s1 := by
  have htne := tiedOf_ne_nil _ hne
  by_cases hone : (tiedOf (candidatesOf (iterHist s res))).length = 1
  · obtain ⟨t, ht⟩ := List.length_eq_one.mp hone
    exact ⟨_, _, _, runIteration_clear_winner s res t ht⟩
  · have htbne : tiebreakResults (tiedOf (candidatesOf (iterHist s res)))
        res (s.calls + 3) ≠ [] := by
      intro hh
      have hlen := tiebreakResults_length (tiedOf (candidatesOf (iterHist s res)))
        res (s.calls + 3)
      rw [hh] at hlen
      exact htne (List.length_eq_zero.mp hlen.symm)
    obtain ⟨w, hw, _, _⟩ := minByValue_spec _ htbne
    exact ⟨_, _, _, runIteration_tiebreak s res hne hone w hw⟩

/-- An optimal outcome ends the loop at once, for any remaining fuel. -/
lemma runLoop_succ_optimal (fuel : Nat) (s : IterState) (res : Nat → ℚ)
    (w : Config) (n : Nat) (s1 : IterState)
    (h : runIteration s res = IterOutcome.optimal w n s1) :
    runLoop (fuel + 1) s res = some (w, s1) := by
  simp only [runLoop, h]

/-- A moved outcome makes the loop continue with the new center. -/
lemma runLoop_succ_moved (fuel : Nat) (s s1 : IterState) (res : Nat → ℚ)
    (h : runIteration s res = IterOutcome.moved s1) :
    runLoop (fuel + 1) s res = runLoop fuel s1 res := by
  simp only [runLoop, h]

/-- Appending through pushResult only ever extends the recorded list of a
configuration. -/
lemma pushResult_getD_append (h : History) (c c0 : Config) (r : ℚ) :
    ∃ tail, (lookupHist (pushResult h c r) c0).getD []
      = (lookupHist h c0).getD [] ++ tail := by
  by_cases hc : c = c0
  · subst hc
    rw [lookupHist_pushResult, if_pos rfl]
    exact ⟨[r], rfl⟩
  · rw [lookupHist_pushResult, if_neg hc]
    exact ⟨[], (List.append_nil _).symm⟩

/-- In an iteration without a 3-sample candidate, the loop moves to one of
the three neighbor configurations of the center. -/
lemma step_moved (L N : Nat) (h : History) (k : Nat) (res : Nat → ℚ)
    (hnil : candidatesOf (iterHist ⟨L, N, h, k⟩ res) = []) :
    runIteration ⟨L, N, h, k⟩ res = IterOutcome.moved
        ⟨(bestConfig L N (res k) (res (k + 1)) (res (k + 2))).1,
          (bestConfig L N (res k) (res (k + 1)) (res (k + 2))).2,
          iterHist ⟨L, N, h, k⟩ res, k + 3⟩ ∧
      (bestConfig L N (res k) (res (k + 1)) (res (k + 2)) = (L, N) ∨
        bestConfig L N (res k) (res (k + 1)) (res (k + 2)) = (L + 1, N - 1) ∨
        bestConfig L N (res k) (res (k + 1)) (res (k + 2)) = (L - 1, N + 1)) := by
  refine ⟨runIteration_moved _ res hnil, ?_⟩
  rcases bestConfig_spec L N (res k) (res (k + 1)) (res (k + 2)) with
    ⟨hb, -⟩ | ⟨hb, -⟩ | ⟨hb, -⟩
  · exact Or.inl hb
  · exact Or.inr (Or.inl hb)
  · exact Or.inr (Or.inr hb)

/-- A loop with fuel left ends as soon as an iteration has a candidate. -/
lemma loop_ends_at (fuel : Nat) (s : IterState) (res : Nat → ℚ)
    (hne : candidatesOf (iterHist s res) ≠ []) :
    ∃ w s1, runLoop (fuel + 1) s res = some (w, s1) := by
  obtain ⟨w, n, s1, hiter⟩ := runIteration_ends s res hne
  exact ⟨w, s1, runLoop_succ_optimal fuel s res w n s1 hiter⟩

/-! ## Optimization loop theorems -/

/-- C1: whenever at least one configuration has 3 or more samples at the
end of an iteration, the loop computes the per-configuration means and the
minimum mean, and if exactly one configuration lies within the 0.01
tolerance of the minimum, that configuration is declared optimal and the
loop terminates with no further try_scenario calls. -/
theorem c1_clear_winner_terminates (s : IterState) (res : Nat → ℚ)
    (hex : ∃ e ∈ iterHist s res, 3 ≤ e.2.length)
    (hone : (tiedOf (candidatesOf (iterHist s res))).length = 1) :
    ∃ t, tiedOf (candidatesOf (iterHist s res)) = [t] ∧
      runIteration s res = IterOutcome.optimal (t.1, t.2.1) 0
        { lands := s.lands, nonlands := s.nonlands,
          hist := iterHist s res, calls := s.calls + 3 } ∧
      t ∈ candidatesOf (iterHist s res) ∧
      |t.2.2 - foldMinInf ((candidatesOf (iterHist s res)).map (fun d => d.2.2))|
          < 1 / 100 ∧
      (∃ e ∈ iterHist s res,
        e.1 = (t.1, t.2.1) ∧ 3 ≤ e.2.length ∧ t.2.2 = listMean e.2) ∧
      ∀ fuel, runLoop (fuel + 1) s res = some ((t.1, t.2.1),
        { lands := s.lands, nonlands := s.nonlands,
          hist := iterHist s res, calls := s.calls + 3 }) := by
  obtain ⟨t, ht⟩ := List.length_eq_one.mp hone
  have hiter := runIteration_clear_winner s res t ht
  have htmem : t ∈ tiedOf (candidatesOf (iterHist s res)) := by
    rw [ht]
    exact List.mem_cons_self _ _
  have hcand : t ∈ candidatesOf (iterHist s res) := (List.mem_filter.mp htmem).1
  have habs : |t.2.2 - foldMinInf ((candidatesOf (iterHist s res)).map
      (fun d => d.2.2))| < 1 / 100 :=
    of_decide_eq_true (List.mem_filter.mp htmem).2
  have hentry : ∃ e ∈ iterHist s res,
      e.1 = (t.1, t.2.1) ∧ 3 ≤ e.2.length ∧ t.2.2 = listMean e.2 := by
    obtain ⟨e, he, heq⟩ := List.mem_filterMap.mp hcand
    by_cases h3 : 3 ≤ e.2.length
    · rw [if_pos h3] at heq
      obtain rfl := (Option.some.inj heq).symm
      exact ⟨e, he, Prod.mk.eta, h3, rfl⟩
    · rw [if_neg h3] at heq
      exact Option.noConfusion heq
  exact ⟨t, ht, hiter, hcand, habs, hentry,
    fun fuel => runLoop_succ_optimal fuel s res _ 0 _ hiter⟩

/-- C1 witness: the theorem applied at a state where (29, 31) ends the
iteration with mean 1 and the two other configurations with mean 9. -/
theorem c1_clear_winner_terminates_witness :
    ∃ t, tiedOf (candidatesOf (iterHist c1State c1Res)) = [t] ∧
      runIteration c1State c1Res = IterOutcome.optimal (t.1, t.2.1) 0
        { lands := c1State.lands, nonlands := c1State.nonlands,
          hist := iterHist c1State c1Res, calls := c1State.calls + 3 } ∧
      t ∈ candidatesOf (iterHist c1State c1Res) ∧
      |t.2.2 - foldMinInf ((candidatesOf (iterHist c1State c1Res)).map
          (fun d => d.2.2))| < 1 / 100 ∧
      (∃ e ∈ iterHist c1State c1Res,
        e.1 = (t.1, t.2.1) ∧ 3 ≤ e.2.length ∧ t.2.2 = listMean e.2) ∧
      ∀ fuel, runLoop (fuel + 1) c1State c1Res = some ((t.1, t.2.1),
        { lands := c1State.lands, nonlands := c1State.nonlands,
          hist := iterHist c1State c1Res, calls := c1State.calls + 3 }) := by
  have hh : iterHist c1State c1Res
      = [((29, 31), [1, 1, 1]), ((30, 30), [9, 9, 9]), ((28, 32), [9, 9, 9])] := by
    norm_num [iterHist, pushResult, c1State, c1Res]
  have hex : ∃ e ∈ iterHist c1State c1Res, 3 ≤ e.2.length := by
    rw [hh]
    exact ⟨((29, 31), [1, 1, 1]), List.mem_cons_self _ _, by norm_num⟩
  have hone : (tiedOf (candidatesOf (iterHist c1State c1Res))).length = 1 := by
    rw [hh]
    have hc : candidatesOf
        [((29, 31), [1, 1, 1]), ((30, 30), [9, 9, 9]), ((28, 32), [9, 9, 9])]
        = [(29, 31, 1), (30, 30, 9), (28, 32, 9)] := by
      norm_num [candidatesOf, listMean, List.filterMap_cons]
    rw [hc]
    have ht : tiedOf [(29, 31, 1), (30, 30, 9), (28, 32, 9)] = [(29, 31, 1)] := by
      norm_num [tiedOf, foldMinInf, min_def, List.filter]
    rw [ht]
    rfl
  exact c1_clear_winner_terminates c1State c1Res hex hone

/-- C2: whenever more than one configuration is tied within the 0.01
tolerance of the minimum mean, the loop runs exactly one extra scenario per
tied configuration (in order, at consecutive call indices), the winner is a
tied configuration whose extra single run has the least value among the
extra runs (not merged into the history), it is declared optimal, and the
loop terminates. -/
theorem c2_tiebreak_terminates (s : IterState) (res : Nat → ℚ)
    (htwo : 2 ≤ (tiedOf (candidatesOf (iterHist s res))).length) :
    ∃ w ∈ tiebreakResults (tiedOf (candidatesOf (iterHist s res))) res (s.calls + 3),
      runIteration s res = IterOutcome.optimal (w.1, w.2.1)
          (tiedOf (candidatesOf (iterHist s res))).length
          { lands := s.lands, nonlands := s.nonlands,
            hist := iterHist s res,
            calls := s.calls + 3 + (tiedOf (candidatesOf (iterHist s res))).length } ∧
      (∀ u ∈ tiebreakResults (tiedOf (candidatesOf (iterHist s res))) res (s.calls + 3),
          w.2.2 ≤ u.2.2) ∧
      (tiebreakResults (tiedOf (candidatesOf (iterHist s res))) res (s.calls + 3)).length
          = (tiedOf (candidatesOf (iterHist s res))).length ∧
      (tiebreakResults (tiedOf (candidatesOf (iterHist s res))) res (s.calls + 3)).map
          (fun c => (c.1, c.2.1))
          = (tiedOf (candidatesOf (iterHist s res))).map (fun c => (c.1, c.2.1)) ∧
      (w.1, w.2.1) ∈ (tiedOf (candidatesOf (iterHist s res))).map (fun c => (c.1, c.2.1)) ∧
      ∀ fuel, runLoop (fuel + 1) s res = some ((w.1, w.2.1),
        { lands := s.lands, nonlands := s.nonlands,
          hist := iterHist s res,
          calls := s.calls + 3 + (tiedOf (candidatesOf (iterHist s res))).length }) := by
  have htne : tiedOf (candidatesOf (iterHist s res)) ≠ [] := by
    intro hh
    rw [hh] at htwo
    simp at htwo
  have hcne : candidatesOf (iterHist s res) ≠ [] := by
    intro hh
    apply htne
    rw [tiedOf, hh]
    rfl
  have hlen1 : (tiedOf (candidatesOf (iterHist s res))).length ≠ 1 := by omega
  have htbne : tiebreakResults (tiedOf (candidatesOf (iterHist s res)))
      res (s.calls + 3) ≠ [] := by
    intro hh
    have hl := tiebreakResults_length (tiedOf (candidatesOf (iterHist s res)))
      res (s.calls + 3)
    rw [hh] at hl
    exact htne (List.length_eq_zero.mp hl.symm)
  obtain ⟨w, hw, hwmem, hwle⟩ := minByValue_spec _ htbne
  have hiter := runIteration_tiebreak s res hcne hlen1 w hw
  refine ⟨w, hwmem, hiter, hwle, tiebreakResults_length _ _ _,
    tiebreakResults_configs _ _ _, ?_, ?_⟩
  · rw [← tiebreakResults_configs (tiedOf (candidatesOf (iterHist s res)))
      res (s.calls + 3)]
    exact List.mem_map_of_mem _ hwmem
  · intro fuel
    exact runLoop_succ_optimal fuel s res _ _ _ hiter

/-- C2 witness: the theorem applied at a state where (29, 31) and (30, 30)
end the iteration tied with mean 1. -/
theorem c2_tiebreak_terminates_witness :
    ∃ w ∈ tiebreakResults (tiedOf (candidatesOf (iterHist c2State c2Res)))
        c2Res (c2State.calls + 3),
      runIteration c2State c2Res = IterOutcome.optimal (w.1, w.2.1)
          (tiedOf (candidatesOf (iterHist c2State c2Res))).length
          { lands := c2State.lands, nonlands := c2State.nonlands,
            hist := iterHist c2State c2Res,
            calls := c2State.calls + 3
              + (tiedOf (candidatesOf (iterHist c2State c2Res))).length } ∧
      (∀ u ∈ tiebreakResults (tiedOf (candidatesOf (iterHist c2State c2Res)))
          c2Res (c2State.calls + 3), w.2.2 ≤ u.2.2) ∧
      (tiebreakResults (tiedOf (candidatesOf (iterHist c2State c2Res)))
          c2Res (c2State.calls + 3)).length
          = (tiedOf (candidatesOf (iterHist c2State c2Res))).length ∧
      (tiebreakResults (tiedOf (candidatesOf (iterHist c2State c2Res)))
          c2Res (c2State.calls + 3)).map (fun c => (c.1, c.2.1))
          = (tiedOf (candidatesOf (iterHist c2State c2Res))).map
            (fun c => (c.1, c.2.1)) ∧
      (w.1, w.2.1) ∈ (tiedOf (candidatesOf (iterHist c2State c2Res))).map
          (fun c => (c.1, c.2.1)) ∧
      ∀ fuel, runLoop (fuel + 1) c2State c2Res = some ((w.1, w.2.1),
        { lands := c2State.lands, nonlands := c2State.nonlands,
          hist := iterHist c2State c2Res,
          calls := c2State.calls + 3
            + (tiedOf (candidatesOf (iterHist c2State c2Res))).length }) := by
  have hh : iterHist c2State c2Res
      = [((29, 31), [1, 1, 1]), ((30, 30), [1, 1, 1]), ((28, 32), [9, 9, 9])] := by
    norm_num [iterHist, pushResult, c2State, c2Res]
  have htwo : 2 ≤ (tiedOf (candidatesOf (iterHist c2State c2Res))).length := by
    rw [hh]
    have hc : candidatesOf
        [((29, 31), [1, 1, 1]), ((30, 30), [1, 1, 1]), ((28, 32), [9, 9, 9])]
        = [(29, 31, 1), (30, 30, 1), (28, 32, 9)] := by
      norm_num [candidatesOf, listMean, List.filterMap_cons]
    rw [hc]
    have ht : tiedOf [(29, 31, 1), (30, 30, 1), (28, 32, 9)]
        = [(29, 31, 1), (30, 30, 1)] := by
      norm_num [tiedOf, foldMinInf, min_def, List.filter]
    rw [ht]
    norm_num
  exact c2_tiebreak_terminates c2State c2Res htwo

/-- C4: in an iteration at whose end no configuration has 3 samples, the
loop does not terminate and the next center is the just-measured
configuration with the least single result. -/
theorem c4_no_quorum_moves_on (s : IterState) (res : Nat → ℚ)
    (hlt : ∀ e ∈ iterHist s res, e.2.length < 3) :
    runIteration s res = IterOutcome.moved
      { lands := (bestConfig s.lands s.nonlands (res s.calls) (res (s.calls + 1))
          (res (s.calls + 2))).1,
        nonlands := (bestConfig s.lands s.nonlands (res s.calls) (res (s.calls + 1))
          (res (s.calls + 2))).2,
        hist := iterHist s res, calls := s.calls + 3 } ∧
    ((bestConfig s.lands s.nonlands (res s.calls) (res (s.calls + 1)) (res (s.calls + 2))
          = (s.lands, s.nonlands) ∧
        res s.calls
          = min (min (res s.calls) (res (s.calls + 1))) (res (s.calls + 2))) ∨
      (bestConfig s.lands s.nonlands (res s.calls) (res (s.calls + 1)) (res (s.calls + 2))
          = (s.lands + 1, s.nonlands - 1) ∧
        res (s.calls + 1)
          = min (min (res s.calls) (res (s.calls + 1))) (res (s.calls + 2))) ∨
      (bestConfig s.lands s.nonlands (res s.calls) (res (s.calls + 1)) (res (s.calls + 2))
          = (s.lands - 1, s.nonlands + 1) ∧
        res (s.calls + 2)
          = min (min (res s.calls) (res (s.calls + 1))) (res (s.calls + 2)))) ∧
    ∀ fuel, runLoop (fuel + 1) s res = runLoop fuel
      { lands := (bestConfig s.lands s.nonlands (res s.calls) (res (s.calls + 1))
          (res (s.calls + 2))).1,
        nonlands := (bestConfig s.lands s.nonlands (res s.calls) (res (s.calls + 1))
          (res (s.calls + 2))).2,
        hist := iterHist s res, calls := s.calls + 3 } res := by
  have hnil := candidatesOf_eq_nil _ hlt
  have hiter := runIteration_moved s res hnil
  exact ⟨hiter, bestConfig_spec _ _ _ _ _,
    fun fuel => runLoop_succ_moved fuel s _ res hiter⟩

/-- C4 witness: the theorem applied at the initial state with a constant
oracle; after one iteration every configuration has a single sample. -/
theorem c4_no_quorum_moves_on_witness :
    runIteration initState (fun _ => (7 : ℚ)) = IterOutcome.moved
      { lands := (bestConfig initState.lands initState.nonlands 7 7 7).1,
        nonlands := (bestConfig initState.lands initState.nonlands 7 7 7).2,
        hist := iterHist initState (fun _ => (7 : ℚ)), calls := initState.calls + 3 } ∧
    ((bestConfig initState.lands initState.nonlands 7 7 7
          = (initState.lands, initState.nonlands) ∧
        (7 : ℚ) = min (min 7 7) 7) ∨
      (bestConfig initState.lands initState.nonlands 7 7 7
          = (initState.lands + 1, initState.nonlands - 1) ∧
        (7 : ℚ) = min (min 7 7) 7) ∨
      (bestConfig initState.lands initState.nonlands 7 7 7
          = (initState.lands - 1, initState.nonlands + 1) ∧
        (7 : ℚ) = min (min 7 7) 7)) ∧
    ∀ fuel, runLoop (fuel + 1) initState (fun _ => (7 : ℚ)) = runLoop fuel
      { lands := (bestConfig initState.lands initState.nonlands 7 7 7).1,
        nonlands := (bestConfig initState.lands initState.nonlands 7 7 7).2,
        hist := iterHist initState (fun _ => (7 : ℚ)), calls := initState.calls + 3 }
      (fun _ => (7 : ℚ)) :=
  c4_no_quorum_moves_on initState (fun _ => (7 : ℚ)) (by decide)

/-- C5: every iteration evaluates exactly the three neighbor configurations
of the current center (L, N): (L, N), (L + 1, N - 1), (L - 1, N + 1), all
of total deck size L + N; from the initial center (29, 31), iteration 1
evaluates exactly (29, 31), (30, 30), (28, 32), and each of them ends the
iteration with exactly one history entry. -/
theorem c5_three_neighbors (L N : Nat) (hL : 1 ≤ L) (hN : 1 ≤ N) (res : Nat → ℚ) :
    (∀ c ∈ iterConfigs L N, c.1 + c.2 = L + N) ∧
    iterHist initState res
      = [((29, 31), [res 0]), ((30, 30), [res 1]), ((28, 32), [res 2])] ∧
    runIteration initState res = IterOutcome.moved
      { lands := (bestConfig 29 31 (res 0) (res 1) (res 2)).1,
        nonlands := (bestConfig 29 31 (res 0) (res 1) (res 2)).2,
        hist := [((29, 31), [res 0]), ((30, 30), [res 1]), ((28, 32), [res 2])],
        calls := 3 } := by
  have hh : iterHist initState res
      = [((29, 31), [res 0]), ((30, 30), [res 1]), ((28, 32), [res 2])] := rfl
  refine ⟨?_, hh, ?_⟩
  · intro c hc
    simp only [iterConfigs, List.mem_cons, List.not_mem_nil, or_false] at hc
    rcases hc with rfl | rfl | rfl
    · rfl
    · simp only []
      omega
    · simp only []
      omega
  · have hnil : candidatesOf (iterHist initState res) = [] := by
      apply candidatesOf_eq_nil
      intro e he
      rw [hh] at he
      simp only [List.mem_cons, List.not_mem_nil, or_false] at he
      rcases he with rfl | rfl | rfl <;> simp
    exact runIteration_moved initState res hnil

/-- C5 witness: the theorem applied at the initial center with a constant
oracle. -/
theorem c5_three_neighbors_witness :
    (∀ c ∈ iterConfigs 29 31, c.1 + c.2 = 29 + 31) ∧
    iterHist initState (fun _ => (7 : ℚ))
      = [((29, 31), [7]), ((30, 30), [7]), ((28, 32), [7])] ∧
    runIteration initState (fun _ => (7 : ℚ)) = IterOutcome.moved
      { lands := (bestConfig 29 31 7 7 7).1,
        nonlands := (bestConfig 29 31 7 7 7).2,
        hist := [((29, 31), [7]), ((30, 30), [7]), ((28, 32), [7])],
        calls := 3 } :=
  c5_three_neighbors 29 31 (by norm_num) (by norm_num) (fun _ => (7 : ℚ))

/-- C3 amended: within each iteration the three per-iteration results are
appended to the history lists of their configurations and no previously
recorded sample is ever removed or replaced (the old list is always a
prefix of the new one); the tie-break extra runs, however, are never added
to the history: every outcome of the loop body carries exactly the history
produced by the three per-iteration appends. -/
theorem c3_appends_not_tiebreak (s : IterState) (res : Nat → ℚ) :
    lookupHist (iterHist s res) (s.lands, s.nonlands)
      = some ((lookupHist s.hist (s.lands, s.nonlands)).getD [] ++ [res s.calls]) ∧
    lookupHist (iterHist s res) (s.lands + 1, s.nonlands - 1)
      = some ((lookupHist s.hist (s.lands + 1, s.nonlands - 1)).getD []
          ++ [res (s.calls + 1)]) ∧
    lookupHist (iterHist s res) (s.lands - 1, s.nonlands + 1)
      = some ((lookupHist s.hist (s.lands - 1, s.nonlands + 1)).getD []
          ++ [res (s.calls + 2)]) ∧
    (∀ c : Config, ∃ tail, (lookupHist (iterHist s res) c).getD []
        = (lookupHist s.hist c).getD [] ++ tail) ∧
    (runIteration s res).histOf = iterHist s res := by
  have d01 : (s.lands, s.nonlands) ≠ (s.lands + 1, s.nonlands - 1) := by
    simp only [ne_eq, Prod.mk.injEq, not_and]
    omega
  have d02 : (s.lands, s.nonlands) ≠ (s.lands - 1, s.nonlands + 1) := by
    simp only [ne_eq, Prod.mk.injEq, not_and]
    omega
  have d12 : (s.lands + 1, s.nonlands - 1) ≠ (s.lands - 1, s.nonlands + 1) := by
    simp only [ne_eq, Prod.mk.injEq, not_and]
    omega
  refine ⟨?_, ?_, ?_, ?_, ?_⟩
  · rw [iterHist, lookupHist_pushResult, if_neg (fun hh => d02 hh.symm),
      lookupHist_pushResult, if_neg (fun hh => d01 hh.symm),
      lookupHist_pushResult, if_pos rfl]
  · rw [iterHist, lookupHist_pushResult, if_neg (fun hh => d12 hh.symm),
      lookupHist_pushResult, if_pos rfl,
      lookupHist_pushResult, if_neg d01]
  · rw [iterHist, lookupHist_pushResult, if_pos rfl,
      lookupHist_pushResult, if_neg d12,
      lookupHist_pushResult, if_neg d02]
  · intro c
    obtain ⟨t1, h1⟩ := pushResult_getD_append s.hist
      (s.lands, s.nonlands) c (res s.calls)
    obtain ⟨t2, h2⟩ := pushResult_getD_append
      (pushResult s.hist (s.lands, s.nonlands) (res s.calls))
      (s.lands + 1, s.nonlands - 1) c (res (s.calls + 1))
    obtain ⟨t3, h3⟩ := pushResult_getD_append
      (pushResult (pushResult s.hist (s.lands, s.nonlands) (res s.calls))
        (s.lands + 1, s.nonlands - 1) (res (s.calls + 1)))
      (s.lands - 1, s.nonlands + 1) c (res (s.calls + 2))
    refine ⟨t1 ++ (t2 ++ t3), ?_⟩
    rw [iterHist, h3, h2, h1, List.append_assoc, List.append_assoc]
  · by_cases hnil : candidatesOf (iterHist s res) = []
    · rw [runIteration_moved s res hnil]
      rfl
    · by_cases hone : (tiedOf (candidatesOf (iterHist s res))).length = 1
      · obtain ⟨t, ht⟩ := List.length_eq_one.mp hone
        rw [runIteration_clear_winner s res t ht]
        rfl
      · have htne := tiedOf_ne_nil _ hnil
        have htbne : tiebreakResults (tiedOf (candidatesOf (iterHist s res)))
            res (s.calls + 3) ≠ [] := by
          intro hh2
          have hl := tiebreakResults_length (tiedOf (candidatesOf (iterHist s res)))
            res (s.calls + 3)
          rw [hh2] at hl
          exact htne (List.length_eq_zero.mp hl.symm)
        obtain ⟨w, hw, -, -⟩ := minByValue_spec _ htbne
        rw [runIteration_tiebreak s res hnil hone w hw]
        rfl

/-- C3 counterexample: in the run driven by c3Res, 11 try_scenario calls
are made (9 regular, 2 tie-break), the winner (30, 30) is chosen by its
extra run returning 4 (call index 10), yet the final history holds only the
9 regular samples: the pair ((30, 30), 4) of that tie-break call was never
appended, so not every evaluated (configuration, result) pair reaches
ResultHistory. -/
theorem c3_counterexample :
    runLoop 3 initState c3Res = some ((30, 30), c3SF) ∧
    c3Res 10 = 4 ∧
    lookupHist c3SF.hist (30, 30) = some [1, 1, 1] ∧
    (4 : ℚ) ∉ ([1, 1, 1] : List ℚ) ∧
    histSize c3SF.hist = 9 ∧
    c3SF.calls = 11 ∧
    (9 : Nat) ≠ 11 := by
  have hE1 : iterHist initState c3Res
      = [((29, 31), [c3Res 0]), ((30, 30), [c3Res 1]), ((28, 32), [c3Res 2])] := rfl
  have hnil1 : candidatesOf (iterHist initState c3Res) = [] := by
    apply candidatesOf_eq_nil
    intro e he
    rw [hE1] at he
    simp only [List.mem_cons, List.not_mem_nil, or_false] at he
    rcases he with rfl | rfl | rfl <;> simp
  have hb1 : bestConfig 29 31 (c3Res 0) (c3Res 1) (c3Res 2) = (29, 31) := by
    norm_num [bestConfig, c3Res, min_def]
  have h1 : runIteration initState c3Res = IterOutcome.moved
      { lands := (bestConfig 29 31 (c3Res 0) (c3Res 1) (c3Res 2)).1,
        nonlands := (bestConfig 29 31 (c3Res 0) (c3Res 1) (c3Res 2)).2,
        hist := [((29, 31), [c3Res 0]), ((30, 30), [c3Res 1]), ((28, 32), [c3Res 2])],
        calls := 3 } :=
    runIteration_moved initState c3Res hnil1
  rw [hb1] at h1
  have h1b : runIteration initState c3Res = IterOutcome.moved c3S1 := by
    rw [h1]
    norm_num [c3Res, c3S1]
  have hE2 : iterHist c3S1 c3Res
      = [((29, 31), [1, c3Res 3]), ((30, 30), [1, c3Res 4]),
        ((28, 32), [9, c3Res 5])] := rfl
  have hnil2 : candidatesOf (iterHist c3S1 c3Res) = [] := by
    apply candidatesOf_eq_nil
    intro e he
    rw [hE2] at he
    simp only [List.mem_cons, List.not_mem_nil, or_false] at he
    rcases he with rfl | rfl | rfl <;> simp
  have hb2 : bestConfig 29 31 (c3Res 3) (c3Res 4) (c3Res 5) = (29, 31) := by
    norm_num [bestConfig, c3Res, min_def]
  have h2 : runIteration c3S1 c3Res = IterOutcome.moved
      { lands := (bestConfig 29 31 (c3Res 3) (c3Res 4) (c3Res 5)).1,
        nonlands := (bestConfig 29 31 (c3Res 3) (c3Res 4) (c3Res 5)).2,
        hist := [((29, 31), [1, c3Res 3]), ((30, 30), [1, c3Res 4]),
          ((28, 32), [9, c3Res 5])],
        calls := 6 } :=
    runIteration_moved c3S1 c3Res hnil2
  rw [hb2] at h2
  have h2b : runIteration c3S1 c3Res = IterOutcome.moved c3S2 := by
    rw [h2]
    norm_num [c3Res, c3S2]
  have hE3 : iterHist c3S2 c3Res
      = [((29, 31), [1, 1, c3Res 6]), ((30, 30), [1, 1, c3Res 7]),
        ((28, 32), [9, 9, c3Res 8])] := rfl
  have hE3b : iterHist c3S2 c3Res
      = [((29, 31), [1, 1, 1]), ((30, 30), [1, 1, 1]), ((28, 32), [9, 9, 9])] := by
    rw [hE3]
    norm_num [c3Res]
  have hc3 : candidatesOf
      [((29, 31), [1, 1, 1]), ((30, 30), [1, 1, 1]), ((28, 32), [9, 9, 9])]
      = [(29, 31, 1), (30, 30, 1), (28, 32, 9)] := by
    norm_num [candidatesOf, listMean, List.filterMap_cons]
  have ht3 : tiedOf [(29, 31, 1), (30, 30, 1), (28, 32, 9)]
      = [(29, 31, 1), (30, 30, 1)] := by
    norm_num [tiedOf, foldMinInf, min_def, List.filter]
  have hcne : candidatesOf (iterHist c3S2 c3Res) ≠ [] := by
    rw [hE3b, hc3]
    simp
  have hlen : (tiedOf (candidatesOf (iterHist c3S2 c3Res))).length ≠ 1 := by
    rw [hE3b, hc3, ht3]
    norm_num
  have htb : tiebreakResults [(29, 31, (1 : ℚ)), (30, 30, (1 : ℚ))] c3Res 9
      = [(29, 31, 5), (30, 30, 4)] := by
    norm_num [tiebreakResults, c3Res]
  have hmin : minByValue [(29, 31, (5 : ℚ)), (30, 30, (4 : ℚ))]
      = some (30, 30, 4) := by
    norm_num [minByValue, List.foldl]
  have hw : minByValue (tiebreakResults (tiedOf (candidatesOf
      (iterHist c3S2 c3Res))) c3Res (c3S2.calls + 3)) = some (30, 30, 4) := by
    rw [hE3b, hc3, ht3]
    show minByValue (tiebreakResults [(29, 31, (1 : ℚ)), (30, 30, (1 : ℚ))]
      c3Res 9) = some (30, 30, 4)
    rw [htb]
    exact hmin
  have h3 := runIteration_tiebreak c3S2 c3Res hcne hlen (30, 30, 4) hw
  rw [hE3b, hc3, ht3] at h3
  have h3b : runIteration c3S2 c3Res = IterOutcome.optimal (30, 30) 2 c3SF := h3
  have e1 : runLoop 3 initState c3Res = runLoop 2 c3S1 c3Res :=
    runLoop_succ_moved 2 initState c3S1 c3Res h1b
  have e2 : runLoop 2 c3S1 c3Res = runLoop 1 c3S2 c3Res :=
    runLoop_succ_moved 1 c3S1 c3S2 c3Res h2b
  have e3 : runLoop 1 c3S2 c3Res = some ((30, 30), c3SF) :=
    runLoop_succ_optimal 0 c3S2 c3Res (30, 30) 2 c3SF h3b
  refine ⟨?_, ?_, rfl, ?_, rfl, rfl, ?_⟩
  · rw [e1, e2, e3]
  · norm_num [c3Res]
  · norm_num
  · norm_num

/-- C10: whatever values the scenario runs return, the optimization loop
started at (29, 31) with an empty history terminates within 3 iterations:
the center of iteration 2 is measured in iterations 1, 2 and 3, so it
reaches 3 samples by the end of iteration 3 and the loop exits through the
clear-winner or tie-break branch. -/
theorem c10_terminates_within_three (res : Nat → ℚ) :
    ∃ w s1, runLoop 3 initState res = some (w, s1) := by
  have hnil1 : candidatesOf (iterHist ⟨29, 31, [], 0⟩ res) = [] := by
    apply candidatesOf_eq_nil
    intro e he
    have hE : iterHist ⟨29, 31, [], 0⟩ res
        = [((29, 31), [res 0]), ((30, 30), [res 1]), ((28, 32), [res 2])] := rfl
    rw [hE] at he
    simp only [List.mem_cons, List.not_mem_nil, or_false] at he
    rcases he with rfl | rfl | rfl <;> simp
  obtain ⟨h1, hb1⟩ := step_moved 29 31 [] 0 res hnil1
  rcases hb1 with hb | hb | hb <;> rw [hb] at h1
  · -- iteration 2 centered at (29, 31)
    have h1b : runIteration ⟨29, 31, [], 0⟩ res = IterOutcome.moved
        ⟨29, 31, [((29, 31), [res 0]), ((30, 30), [res 1]), ((28, 32), [res 2])],
          3⟩ := h1
    have hnil2 : candidatesOf (iterHist
        ⟨29, 31, [((29, 31), [res 0]), ((30, 30), [res 1]), ((28, 32), [res 2])],
          3⟩ res) = [] := by
      apply candidatesOf_eq_nil
      intro e he
      have hE : iterHist
          ⟨29, 31, [((29, 31), [res 0]), ((30, 30), [res 1]), ((28, 32), [res 2])],
            3⟩ res
          = [((29, 31), [res 0, res 3]), ((30, 30), [res 1, res 4]),
            ((28, 32), [res 2, res 5])] := rfl
      rw [hE] at he
      simp only [List.mem_cons, List.not_mem_nil, or_false] at he
      rcases he with rfl | rfl | rfl <;> simp
    obtain ⟨h2, hb2⟩ := step_moved 29 31
      [((29, 31), [res 0]), ((30, 30), [res 1]), ((28, 32), [res 2])] 3 res hnil2
    rcases hb2 with hb2 | hb2 | hb2 <;> rw [hb2] at h2
    · -- iteration 3 centered at (29, 31)
      have h2b : runIteration
          ⟨29, 31, [((29, 31), [res 0]), ((30, 30), [res 1]), ((28, 32), [res 2])],
            3⟩ res = IterOutcome.moved
          ⟨29, 31, [((29, 31), [res 0, res 3]), ((30, 30), [res 1, res 4]),
            ((28, 32), [res 2, res 5])], 6⟩ := h2
      have hne3 : candidatesOf (iterHist
          ⟨29, 31, [((29, 31), [res 0, res 3]), ((30, 30), [res 1, res 4]),
            ((28, 32), [res 2, res 5])], 6⟩ res) ≠ [] := by
        apply candidatesOf_ne_nil _ ((29, 31), [res 0, res 3, res 6])
        · have hE : iterHist
              ⟨29, 31, [((29, 31), [res 0, res 3]), ((30, 30), [res 1, res 4]),
                ((28, 32), [res 2, res 5])], 6⟩ res
              = [((29, 31), [res 0, res 3, res 6]), ((30, 30), [res 1, res 4, res 7]),
                ((28, 32), [res 2, res 5, res 8])] := rfl
          rw [hE]
          exact List.mem_cons_self _ _
        · simp
      obtain ⟨w, s3, hloop⟩ := loop_ends_at 0 _ res hne3
      refine ⟨w, s3, ?_⟩
      have e1 := runLoop_succ_moved 2 ⟨29, 31, [], 0⟩ _ res h1b
      have e2 := runLoop_succ_moved 1 _ _ res h2b
      rw [show runLoop 3 initState res = runLoop (2 + 1) ⟨29, 31, [], 0⟩ res from rfl,
        e1, e2]
      exact hloop
    · -- iteration 3 centered at (30, 30)
      have h2b : runIteration
          ⟨29, 31, [((29, 31), [res 0]), ((30, 30), [res 1]), ((28, 32), [res 2])],
            3⟩ res = IterOutcome.moved
          ⟨30, 30, [((29, 31), [res 0, res 3]), ((30, 30), [res 1, res 4]),
            ((28, 32), [res 2, res 5])], 6⟩ := h2
      have hne3 : candidatesOf (iterHist
          ⟨30, 30, [((29, 31), [res 0, res 3]), ((30, 30), [res 1, res 4]),
            ((28, 32), [res 2, res 5])], 6⟩ res) ≠ [] := by
        apply candidatesOf_ne_nil _ ((30, 30), [res 1, res 4, res 6])
        · have hE : iterHist
              ⟨30, 30, [((29, 31), [res 0, res 3]), ((30, 30), [res 1, res 4]),
                ((28, 32), [res 2, res 5])], 6⟩ res
              = [((29, 31), [res 0, res 3, res 8]), ((30, 30), [res 1, res 4, res 6]),
                ((28, 32), [res 2, res 5]), ((31, 29), [res 7])] := rfl
          rw [hE]
          simp
        · simp
      obtain ⟨w, s3, hloop⟩ := loop_ends_at 0 _ res hne3
      refine ⟨w, s3, ?_⟩
      have e1 := runLoop_succ_moved 2 ⟨29, 31, [], 0⟩ _ res h1b
      have e2 := runLoop_succ_moved 1 _ _ res h2b
      rw [show runLoop 3 initState res = runLoop (2 + 1) ⟨29, 31, [], 0⟩ res from rfl,
        e1, e2]
      exact hloop
    · -- iteration 3 centered at (28, 32)
      have h2b : runIteration
          ⟨29, 31, [((29, 31), [res 0]), ((30, 30), [res 1]), ((28, 32), [res 2])],
            3⟩ res = IterOutcome.moved
          ⟨28, 32, [((29, 31), [res 0, res 3]), ((30, 30), [res 1, res 4]),
            ((28, 32), [res 2, res 5])], 6⟩ := h2
      have hne3 : candidatesOf (iterHist
          ⟨28, 32, [((29, 31), [res 0, res 3]), ((30, 30), [res 1, res 4]),
            ((28, 32), [res 2, res 5])], 6⟩ res) ≠ [] := by
        apply candidatesOf_ne_nil _ ((29, 31), [res 0, res 3, res 7])
        · have hE : iterHist
              ⟨28, 32, [((29, 31), [res 0, res 3]), ((30, 30), [res 1, res 4]),
                ((28, 32), [res 2, res 5])], 6⟩ res
              = [((29, 31), [res 0, res 3, res 7]), ((30, 30), [res 1, res 4]),
                ((28, 32), [res 2, res 5, res 6]), ((27, 33), [res 8])] := rfl
          rw [hE]
          exact List.mem_cons_self _ _
        · simp
      obtain ⟨w, s3, hloop⟩ := loop_ends_at 0 _ res hne3
      refine ⟨w, s3, ?_⟩
      have e1 := runLoop_succ_moved 2 ⟨29, 31, [], 0⟩ _ res h1b
      have e2 := runLoop_succ_moved 1 _ _ res h2b
      rw [show runLoop 3 initState res = runLoop (2 + 1) ⟨29, 31, [], 0⟩ res from rfl,
        e1, e2]
      exact hloop
  · -- iteration 2 centered at (30, 30)
    have h1b : runIteration ⟨29, 31, [], 0⟩ res = IterOutcome.moved
        ⟨30, 30, [((29, 31), [res 0]), ((30, 30), [res 1]), ((28, 32), [res 2])],
          3⟩ := h1
    have hnil2 : candidatesOf (iterHist
        ⟨30, 30, [((29, 31), [res 0]), ((30, 30), [res 1]), ((28, 32), [res 2])],
          3⟩ res) = [] := by
      apply candidatesOf_eq_nil
      intro e he
      have hE : iterHist
          ⟨30, 30, [((29, 31), [res 0]), ((30, 30), [res 1]), ((28, 32), [res 2])],
            3⟩ res
          = [((29, 31), [res 0, res 5]), ((30, 30), [res 1, res 3]),
            ((28, 32), [res 2]), ((31, 29), [res 4])] := rfl
      rw [hE] at he
      simp only [List.mem_cons, List.not_mem_nil, or_false] at he
      rcases he with rfl | rfl | rfl | rfl <;> simp
    obtain ⟨h2, hb2⟩ := step_moved 30 30
      [((29, 31), [res 0]), ((30, 30), [res 1]), ((28, 32), [res 2])] 3 res hnil2
    rcases hb2 with hb2 | hb2 | hb2 <;> rw [hb2] at h2
    · -- iteration 3 centered at (30, 30)
      have h2b : runIteration
          ⟨30, 30, [((29, 31), [res 0]), ((30, 30), [res 1]), ((28, 32), [res 2])],
            3⟩ res = IterOutcome.moved
          ⟨30, 30, [((29, 31), [res 0, res 5]), ((30, 30), [res 1, res 3]),
            ((28, 32), [res 2]), ((31, 29), [res 4])], 6⟩ := h2
      have hne3 : candidatesOf (iterHist
          ⟨30, 30, [((29, 31), [res 0, res 5]), ((30, 30), [res 1, res 3]),
            ((28, 32), [res 2]), ((31, 29), [res 4])], 6⟩ res) ≠ [] := by
        apply candidatesOf_ne_nil _ ((30, 30), [res 1, res 3, res 6])
        · have hE : iterHist
              ⟨30, 30, [((29, 31), [res 0, res 5]), ((30, 30), [res 1, res 3]),
                ((28, 32), [res 2]), ((31, 29), [res 4])], 6⟩ res
              = [((29, 31), [res 0, res 5, res 8]), ((30, 30), [res 1, res 3, res 6]),
                ((28, 32), [res 2]), ((31, 29), [res 4, res 7])] := rfl
          rw [hE]
          simp
        · simp
      obtain ⟨w, s3, hloop⟩ := loop_ends_at 0 _ res hne3
      refine ⟨w, s3, ?_⟩
      have e1 := runLoop_succ_moved 2 ⟨29, 31, [], 0⟩ _ res h1b
      have e2 := runLoop_succ_moved 1 _ _ res h2b
      rw [show runLoop 3 initState res = runLoop (2 + 1) ⟨29, 31, [], 0⟩ res from rfl,
        e1, e2]
      exact hloop
    · -- iteration 3 centered at (31, 29)
      have h2b : runIteration
          ⟨30, 30, [((29, 31), [res 0]), ((30, 30), [res 1]), ((28, 32), [res 2])],
            3⟩ res = IterOutcome.moved
          ⟨31, 29, [((29, 31), [res 0, res 5]), ((30, 30), [res 1, res 3]),
            ((28, 32), [res 2]), ((31, 29), [res 4])], 6⟩ := h2
      have hne3 : candidatesOf (iterHist
          ⟨31, 29, [((29, 31), [res 0, res 5]), ((30, 30), [res 1, res 3]),
            ((28, 32), [res 2]), ((31, 29), [res 4])], 6⟩ res) ≠ [] := by
        apply candidatesOf_ne_nil _ ((30, 30), [res 1, res 3, res 8])
        · have hE : iterHist
              ⟨31, 29, [((29, 31), [res 0, res 5]), ((30, 30), [res 1, res 3]),
                ((28, 32), [res 2]), ((31, 29), [res 4])], 6⟩ res
              = [((29, 31), [res 0, res 5]), ((30, 30), [res 1, res 3, res 8]),
                ((28, 32), [res 2]), ((31, 29), [res 4, res 6]), ((32, 28), [res 7])]
              := rfl
          rw [hE]
          simp
        · simp
      obtain ⟨w, s3, hloop⟩ := loop_ends_at 0 _ res hne3
      refine ⟨w, s3, ?_⟩
      have e1 := runLoop_succ_moved 2 ⟨29, 31, [], 0⟩ _ res h1b
      have e2 := runLoop_succ_moved 1 _ _ res h2b
      rw [show runLoop 3 initState res = runLoop (2 + 1) ⟨29, 31, [], 0⟩ res from rfl,
        e1, e2]
      exact hloop
    · -- iteration 3 centered at (29, 31)
      have h2b : runIteration
          ⟨30, 30, [((29, 31), [res 0]), ((30, 30), [res 1]), ((28, 32), [res 2])],
            3⟩ res = IterOutcome.moved
          ⟨29, 31, [((29, 31), [res 0, res 5]), ((30, 30), [res 1, res 3]),
            ((28, 32), [res 2]), ((31, 29), [res 4])], 6⟩ := h2
      have hne3 : candidatesOf (iterHist
          ⟨29, 31, [((29, 31), [res 0, res 5]), ((30, 30), [res 1, res 3]),
            ((28, 32), [res 2]), ((31, 29), [res 4])], 6⟩ res) ≠ [] := by
        apply candidatesOf_ne_nil _ ((29, 31), [res 0, res 5, res 6])
        · have hE : iterHist
              ⟨29, 31, [((29, 31), [res 0, res 5]), ((30, 30), [res 1, res 3]),
                ((28, 32), [res 2]), ((31, 29), [res 4])], 6⟩ res
              = [((29, 31), [res 0, res 5, res 6]), ((30, 30), [res 1, res 3, res 7]),
                ((28, 32), [res 2, res 8]), ((31, 29), [res 4])] := rfl
          rw [hE]
          exact List.mem_cons_self _ _
        · simp
      obtain ⟨w, s3, hloop⟩ := loop_ends_at 0 _ res hne3
      refine ⟨w, s3, ?_⟩
      have e1 := runLoop_succ_moved 2 ⟨29, 31, [], 0⟩ _ res h1b
      have e2 := runLoop_succ_moved 1 _ _ res h2b
      rw [show runLoop 3 initState res = runLoop (2 + 1) ⟨29, 31, [], 0⟩ res from rfl,
        e1, e2]
      exact hloop
  · -- iteration 2 centered at (28, 32)
    have h1b : runIteration ⟨29, 31, [], 0⟩ res = IterOutcome.moved
        ⟨28, 32, [((29, 31), [res 0]), ((30, 30), [res 1]), ((28, 32), [res 2])],
          3⟩ := h1
    have hnil2 : candidatesOf (iterHist
        ⟨28, 32, [((29, 31), [res 0]), ((30, 30), [res 1]), ((28, 32), [res 2])],
          3⟩ res) = [] := by
      apply candidatesOf_eq_nil
      intro e he
      have hE : iterHist
          ⟨28, 32, [((29, 31), [res 0]), ((30, 30), [res 1]), ((28, 32), [res 2])],
            3⟩ res
          = [((29, 31), [res 0, res 4]), ((30, 30), [res 1]),
            ((28, 32), [res 2, res 3]), ((27, 33), [res 5])] := rfl
      rw [hE] at he
      simp only [List.mem_cons, List.not_mem_nil, or_false] at he
      rcases he with rfl | rfl | rfl | rfl <;> simp
    obtain ⟨h2, hb2⟩ := step_moved 28 32
      [((29, 31), [res 0]), ((30, 30), [res 1]), ((28, 32), [res 2])] 3 res hnil2
    rcases hb2 with hb2 | hb2 | hb2 <;> rw [hb2] at h2
    · -- iteration 3 centered at (28, 32)
      have h2b : runIteration
          ⟨28, 32, [((29, 31), [res 0]), ((30, 30), [res 1]), ((28, 32), [res 2])],
            3⟩ res = IterOutcome.moved
          ⟨28, 32, [((29, 31), [res 0, res 4]), ((30, 30), [res 1]),
            ((28, 32), [res 2, res 3]), ((27, 33), [res 5])], 6⟩ := h2
      have hne3 : candidatesOf (iterHist
          ⟨28, 32, [((29, 31), [res 0, res 4]), ((30, 30), [res 1]),
            ((28, 32), [res 2, res 3]), ((27, 33), [res 5])], 6⟩ res) ≠ [] := by
        apply candidatesOf_ne_nil _ ((29, 31), [res 0, res 4, res 7])
        · have hE : iterHist
              ⟨28, 32, [((29, 31), [res 0, res 4]), ((30, 30), [res 1]),
                ((28, 32), [res 2, res 3]), ((27, 33), [res 5])], 6⟩ res
              = [((29, 31), [res 0, res 4, res 7]), ((30, 30), [res 1]),
                ((28, 32), [res 2, res 3, res 6]), ((27, 33), [res 5, res 8])] := rfl
          rw [hE]
          exact List.mem_cons_self _ _
        · simp
      obtain ⟨w, s3, hloop⟩ := loop_ends_at 0 _ res hne3
      refine ⟨w, s3, ?_⟩
      have e1 := runLoop_succ_moved 2 ⟨29, 31, [], 0⟩ _ res h1b
      have e2 := runLoop_succ_moved 1 _ _ res h2b
      rw [show runLoop 3 initState res = runLoop (2 + 1) ⟨29, 31, [], 0⟩ res from rfl,
        e1, e2]
      exact hloop
    · -- iteration 3 centered at (29, 31)
      have h2b : runIteration
          ⟨28, 32, [((29, 31), [res 0]), ((30, 30), [res 1]), ((28, 32), [res 2])],
            3⟩ res = IterOutcome.moved
          ⟨29, 31, [((29, 31), [res 0, res 4]), ((30, 30), [res 1]),
            ((28, 32), [res 2, res 3]), ((27, 33), [res 5])], 6⟩ := h2
      have hne3 : candidatesOf (iterHist
          ⟨29, 31, [((29, 31), [res 0, res 4]), ((30, 30), [res 1]),
            ((28, 32), [res 2, res 3]), ((27, 33), [res 5])], 6⟩ res) ≠ [] := by
        apply candidatesOf_ne_nil _ ((29, 31), [res 0, res 4, res 6])
        · have hE : iterHist
              ⟨29, 31, [((29, 31), [res 0, res 4]), ((30, 30), [res 1]),
                ((28, 32), [res 2, res 3]), ((27, 33), [res 5])], 6⟩ res
              = [((29, 31), [res 0, res 4, res 6]), ((30, 30), [res 1, res 7]),
                ((28, 32), [res 2, res 3, res 8]), ((27, 33), [res 5])] := rfl
          rw [hE]
          exact List.mem_cons_self _ _
        · simp
      obtain ⟨w, s3, hloop⟩ := loop_ends_at 0 _ res hne3
      refine ⟨w, s3, ?_⟩
      have e1 := runLoop_succ_moved 2 ⟨29, 31, [], 0⟩ _ res h1b
      have e2 := runLoop_succ_moved 1 _ _ res h2b
      rw [show runLoop 3 initState res = runLoop (2 + 1) ⟨29, 31, [], 0⟩ res from rfl,
        e1, e2]
      exact hloop
    · -- iteration 3 centered at (27, 33)
      have h2b : runIteration
          ⟨28, 32, [((29, 31), [res 0]), ((30, 30), [res 1]), ((28, 32), [res 2])],
            3⟩ res = IterOutcome.moved
          ⟨27, 33, [((29, 31), [res 0, res 4]), ((30, 30), [res 1]),
            ((28, 32), [res 2, res 3]), ((27, 33), [res 5])], 6⟩ := h2
      have hne3 : candidatesOf (iterHist
          ⟨27, 33, [((29, 31), [res 0, res 4]), ((30, 30), [res 1]),
            ((28, 32), [res 2, res 3]), ((27, 33), [res 5])], 6⟩ res) ≠ [] := by
        apply candidatesOf_ne_nil _ ((28, 32), [res 2, res 3, res 7])
        · have hE : iterHist
              ⟨27, 33, [((29, 31), [res 0, res 4]), ((30, 30), [res 1]),
                ((28, 32), [res 2, res 3]), ((27, 33), [res 5])], 6⟩ res
              = [((29, 31), [res 0, res 4]), ((30, 30), [res 1]),
                ((28, 32), [res 2, res 3, res 7]), ((27, 33), [res 5, res 6]),
                ((26, 34), [res 8])] := rfl
          rw [hE]
          simp
        · simp
      obtain ⟨w, s3, hloop⟩ := loop_ends_at 0 _ res hne3
      refine ⟨w, s3, ?_⟩
      have e1 := runLoop_succ_moved 2 ⟨29, 31, [], 0⟩ _ res h1b
      have e2 := runLoop_succ_moved 1 _ _ res h2b
      rw [show runLoop 3 initState res = runLoop (2 + 1) ⟨29, 31, [], 0⟩ res from rfl,
        e1, e2]
      exact hloop

/-! ## Card model theorems -/

/-- C7: for every card, is_creature returns true if and only if the card
carries the Creature category tag or holds a Creature capability payload. -/
theorem c7_is_creature_iff (card : Card) :
    is_creature card = true ↔
      (CardType.Creature ∈ card.card_types ∨
        (card.fragments CardFragmentKind.Creature).isSome = true) := by
  unfold is_creature
  rw [Bool.or_eq_true, List.any_eq_true]
  constructor
  · rintro (⟨x, hx, hb⟩ | h)
    · exact Or.inl (by rwa [beq_iff_eq.mp hb] at hx)
    · exact Or.inr h
  · rintro (h | h)
    · exact Or.inl ⟨CardType.Creature, h, beq_self_eq_true CardType.Creature⟩
    · exact Or.inr h

/-- C8: after add_creature_fragment with power p and toughness t, the
creature stats read back as p and t, summoning sickness is false, and the
operation is idempotent (it replaces any prior Creature payload). -/
theorem c8_add_creature_capability (card : Card) (p t : Nat) :
    creature_stats (add_creature_fragment card p t)
        = some { power := p, toughness := t } ∧
    has_summoning_sickness (add_creature_fragment card p t) = false ∧
    add_creature_fragment (add_creature_fragment card p t) p t
        = add_creature_fragment card p t := by
  refine ⟨rfl, rfl, ?_⟩
  apply Card.ext
  · rfl
  · funext k
    cases k
    rfl

/-- C9: set_summoning_sickness on a card lacking the Creature capability is
a no-op for every value and has_summoning_sickness returns false; on a card
holding the capability, setting the bit to true makes the query read true. -/
theorem c9_summoning_sickness_safety :
    (∀ (card : Card) (v : Bool), card.fragments CardFragmentKind.Creature = none →
        set_summoning_sickness card v = card ∧ has_summoning_sickness card = false) ∧
    (∀ card : Card, (card.fragments CardFragmentKind.Creature).isSome = true →
        has_summoning_sickness (set_summoning_sickness card true) = true) := by
  constructor
  · intro card v h
    constructor
    · unfold set_summoning_sickness
      rw [h]
    · unfold has_summoning_sickness
      rw [h]
      rfl
  · intro card h
    cases hf : card.fragments CardFragmentKind.Creature with
    | none => rw [hf] at h; simp at h
    | some f =>
        cases f with
        | creature cf =>
            unfold set_summoning_sickness
            rw [hf]
            unfold has_summoning_sickness
            rfl

/-- C9 witness: the theorem applied to a card without the capability and to
a card with it. -/
theorem c9_summoning_sickness_safety_witness :
    (set_summoning_sickness blankCard false = blankCard ∧
      has_summoning_sickness blankCard = false) ∧
    has_summoning_sickness (set_summoning_sickness sampleCreatureCard true) = true :=
  ⟨c9_summoning_sickness_safety.1 blankCard false rfl,
   c9_summoning_sickness_safety.2 sampleCreatureCard rfl⟩

/-- C6 counterexample: add_creature_fragment on a card with no category
tags yields a card holding the Creature capability payload but not carrying
the Creature category tag, so the two signals diverge after a standard card
operation, contrary to the claim. -/
theorem c6_counterexample :
    ((add_creature_fragment blankCard 3 4).fragments CardFragmentKind.Creature).isSome
        = true ∧
    CardType.Creature ∉ (add_creature_fragment blankCard 3 4).card_types := by
  constructor
  · rfl
  · intro h
    simp [add_creature_fragment, blankCard] at h

/-- C6 amended: the standard card operations never modify the category
tags; add_creature_fragment installs the payload and remove_creature_fragment
removes it without touching the tags, so the Creature tag and the Creature
payload are not kept synchronized and can diverge. -/
theorem c6_tags_never_updated (card : Card) (p t : Nat) :
    (add_creature_fragment card p t).card_types = card.card_types ∧
    ((add_creature_fragment card p t).fragments CardFragmentKind.Creature).isSome
        = true ∧
    (remove_creature_fragment card).card_types = card.card_types ∧
    (remove_creature_fragment card).fragments CardFragmentKind.Creature = none ∧
    ∀ v : Bool, (set_summoning_sickness card v).card_types = card.card_types := by
  refine ⟨rfl, rfl, rfl, rfl, ?_⟩
  intro v
  cases hf : card.fragments CardFragmentKind.Creature with
  | none => unfold set_summoning_sickness; rw [hf]
  | some f =>
      cases f with
      | creature cf =>
          unfold set_summoning_sickness
          rw [hf]

end TcgSim
